import Mathlib

/-!
Shallow embedding of the visual-regression screenshot engine
(`core/utils/screenshot_utils.py`, class `ScreenshotUtils`).

Filenames are `String`s, directory listings are `Option (List String)`
(`none` models an absent directory, `some l` a directory whose entries
are the filenames in `l`; a real `os.listdir` never repeats a name and
returns the entries in an unspecified order, so the same directory state
may be observed as any listing order).  Image files are modelled by
`File`: decoding either fails (a corrupt file, carrying the exception
text) or yields dimensions plus pixel data.  Colour-mode normalisation
(`Image.convert`) is folded into `pixels`: `pixels` is the pixel data
after normalising both images to a common mode, so PIL's
`ImageChops.difference(a, b).getbbox() is None` holds iff the two
`pixels` lists are equal.
-/

/-- Result of decoding one on-disk image file: either the decoder raises
(with the exception text) or it yields a width, a height and pixel data. -/
inductive File where
  | corrupt (msg : String) : File
  | img (width height : Nat) (pixels : List Nat) : File
deriving DecidableEq

/-- Filesystem state of one subject: the `base` and `cur` directory
listings (absent or a list of filenames) and the decoded content of each
filename in either directory. -/
structure FS where
  base : Option (List String)
  cur : Option (List String)
  baseContent : String → File
  curContent : String → File

/-- Embeds Python `str.split("_")` on the character list of a string:
every occurrence of the separator starts a new piece, so adjacent
separators yield empty pieces and the result is always non-empty. -/
def splitUnderscore : List Char → List (List Char)
  | [] => [[]]
  | c :: cs =>
    match splitUnderscore cs with
    | [] => [[]]
    | h :: t => if c = '_' then [] :: h :: t else (c :: h) :: t

/-- Embeds Python `"_".join(parts)` on character lists. -/
def joinUnderscore : List (List Char) → List Char
  | [] => []
  | [p] => p
  | p :: ps => p ++ '_' :: joinUnderscore ps

/-- Embeds Python `s.replace(".png", "")`: delete every (left-to-right,
non-overlapping) occurrence of `.png`. -/
def removeDotPng : List Char → List Char
  | '.' :: 'p' :: 'n' :: 'g' :: cs => removeDotPng cs
  | c :: cs => c :: removeDotPng cs
  | [] => []

/-- Embeds Python `s.endswith(".png")`. -/
def endsWithPng (s : String) : Bool :=
  s.data.reverse.take 4 == ['g', 'n', 'p', '.']

/-- Embeds the inner helper `extract_step_info` of `compare_screenshots`
(screenshot_utils.py lines 117-127): reject filenames not ending in
`.png`; split on `_`; with at least 3 parts (`timestamp_step_name.png`),
return `parts[1] + "_" + "_".join(parts[2:]).replace(".png", "") + ".png"`;
otherwise `None`. -/
def extract_step_info (filename : String) : Option String :=
  if endsWithPng filename then
    match splitUnderscore filename.data with
    | _ :: step_num :: r :: rest =>
        some (String.mk (step_num ++ '_' ::
          removeDotPng (joinUnderscore (r :: rest)) ++ ['.', 'p', 'n', 'g']))
    | _ => none
  else none

/-- Embeds the dict-building loops of `compare_screenshots` (lines
129-141): each listed filename with a step key becomes a `(key, filename)`
entry.  The input list stands for one iteration order of the Python
`set(os.listdir(...))`; a later entry for the same key overwrites an
earlier one (dict assignment), which `lookupLast` reproduces. -/
def buildStepMap (files : List String) : List (String × String) :=
  files.filterMap (fun f => (extract_step_info f).map (fun k => (k, f)))

/-- Embeds a Python dict lookup on a map built by repeated assignment:
the value of the last entry whose key matches wins. -/
def lookupLast (m : List (String × String)) (k : String) : Option String :=
  match m with
  | [] => none
  | (k2, f) :: rest =>
    match lookupLast rest k with
    | some r => some r
    | none => if k2 = k then some f else none

/-- Embeds `set(d.keys())` of a dict built by repeated assignment: the
distinct keys occurring in the map. -/
def dictKeys (m : List (String × String)) : List String :=
  (m.map Prod.fst).dedup

/-- Embeds `set(base_step_files.keys()).intersection(set(cur_step_files.keys()))`
(line 144). -/
def commonKeys (bm cm : List (String × String)) : List String :=
  (dictKeys bm).filter (fun k => (dictKeys cm).contains k)

/-- Lexicographic comparison of character lists by code point, the order
Python `sorted` uses on `str`. -/
def charListLe : List Char → List Char → Bool
  | [], _ => true
  | _ :: _, [] => false
  | a :: as, b :: bs =>
    if a.toNat < b.toNat then true
    else if b.toNat < a.toNat then false
    else charListLe as bs

/-- Lexicographic string comparison by code point. -/
def strLe (a b : String) : Bool :=
  charListLe a.data b.data

/-- Insert a key into an already sorted list, keeping it sorted. -/
def insertSorted (k : String) : List String → List String
  | [] => [k]
  | x :: xs => if strLe k x then k :: x :: xs else x :: insertSorted k xs

/-- Embeds Python `sorted` (line 155) as a stable insertion sort in the
code-point lexicographic order. -/
def sortKeys : List String → List String
  | [] => []
  | k :: ks => insertSorted k (sortKeys ks)

/-- Outcome of comparing one matched pair, as classified by the loop body
of `compare_screenshots` (lines 162-189). -/
inductive Verdict where
  | identical : Verdict
  | different : Verdict
  | sizeMismatch : Verdict
  | error (msg : String) : Verdict
deriving DecidableEq

/-- Embeds the per-pair body of the comparison loop (lines 162-189):
opening a corrupt file raises (base is opened first), caught as the error
case; differing dimensions give the size-mismatch case; otherwise the
images are normalised to a common colour mode (folded into `pixels`, see
the header comment) and `ImageChops.difference(..).getbbox() is None`
decides identical versus different. -/
def compareFiles : File → File → Verdict
  | File.corrupt m, _ => Verdict.error m
  | File.img _ _ _, File.corrupt m => Verdict.error m
  | File.img w1 h1 p1, File.img w2 h2 p2 =>
    if w1 ≠ w2 ∨ h1 ≠ h2 then Verdict.sizeMismatch
    else if p1 = p2 then Verdict.identical
    else Verdict.different

/-- The string the loop appends to the `differences` accumulator for a
non-identical verdict at key `k` (lines 169, 184, 188), and `none` for an
identical pair (which is appended to `identical` instead, line 181). -/
def diffEntry (k : String) : Verdict → Option String
  | Verdict.identical => none
  | Verdict.different => some k
  | Verdict.sizeMismatch => some ("Size mismatch: " ++ k)
  | Verdict.error m => some ("Error comparing " ++ k ++ ": " ++ m)

/-- Content of the file a step map associates to key `k`.  For the keys
`compare_screenshots` uses — members of the intersection of the two key
sets — the lookup always succeeds; the default branch mirrors the Python
`KeyError` that would otherwise be raised at lines 156-157. -/
def keyFile (m : List (String × String)) (content : String → File)
    (k : String) : File :=
  match lookupLast m k with
  | some f => content f
  | none => File.corrupt "KeyError"

/-- Embeds the comparison loop of lines 155-189: each key, in order,
contributes either to the `identical` accumulator or to the `differences`
accumulator, and a bad pair never stops the traversal. -/
def compareLoop (bf cf : String → File) : List String → List String × List String
  | [] => ([], [])
  | k :: rest =>
    let res := compareLoop bf cf rest
    match diffEntry k (compareFiles (bf k) (cf k)) with
    | none => (k :: res.1, res.2)
    | some e => (res.1, e :: res.2)

/-- Embeds `ScreenshotUtils.compare_screenshots` (lines 92-198) on the
abstract filesystem state: absent `base` or `cur` directory, or an empty
key intersection (which includes either listing being empty), short-circuit
to `(False, [], [])`; otherwise the matched keys are compared in sorted
order and the overall flag is `True` exactly when `differences` stayed
empty. -/
def compare_screenshots (fs : FS) : Bool × List String × List String :=
  match fs.base with
  | none => (false, [], [])
  | some bfiles =>
    match fs.cur with
    | none => (false, [], [])
    | some cfiles =>
      let bm := buildStepMap bfiles
      let cm := buildStepMap cfiles
      let common := commonKeys bm cm
      if common.isEmpty then (false, [], [])
      else
        let res := compareLoop (keyFile bm fs.baseContent)
          (keyFile cm fs.curContent) (sortKeys common)
        if res.2.isEmpty then (true, res.1, res.2)
        else (false, res.1, res.2)

/-- Embeds `ScreenshotUtils._get_screenshot_dirs` (lines 19-32). -/
def get_screenshot_dirs (app_package : String) : String × String :=
  ("tests/" ++ app_package ++ "/screenshots/base",
   "tests/" ++ app_package ++ "/screenshots/cur")

/-- Embeds `ScreenshotUtils.save_screenshot` (lines 34-63).  The wall
clock (`datetime.now().strftime("%Y%m%d_%H%M%S")`) enters as the `now`
argument and the driver's `take_screenshot` call as the `shot` argument:
`Except.ok ()` when the write goes through, `Except.error e` when the
filesystem or driver raises `e`.  On success the built path is returned;
on failure the handler logs and then re-raises, modelled by `Except.error e`
escaping to the caller. -/
def save_screenshot (app_package : String) (name step_num now : String)
    (shot : Except String Unit) : Except String String :=
  match shot with
  | Except.ok _ =>
      Except.ok ((get_screenshot_dirs app_package).2 ++ "/" ++ now ++ "_" ++
        step_num ++ "_" ++ name ++ ".png")
  | Except.error e => Except.error e

/-- Embeds `ScreenshotUtils.clear_screenshot_directory` (lines 65-90): an
existing `cur` directory is removed by `shutil.rmtree` and not recreated;
an absent one is created empty by `os.makedirs`.  Both branches return
`True`.  (Filesystem failures of `rmtree`/`makedirs`, which the function
would catch and turn into `False`, are not modelled.) -/
def clear_screenshot_directory (fs : FS) : Bool × FS :=
  match fs.cur with
  | some _ => (true, { fs with cur := none })
  | none => (true, { fs with cur := some [] })

/-- Truth value of the Python guard `os.path.exists(base_dir) and
os.listdir(base_dir)` (lines 214 and 283): the base directory exists and
holds at least one file. -/
def baseNonempty (fs : FS) : Bool :=
  match fs.base with
  | some l => !l.isEmpty
  | none => false

/-- Sequential per-file copy of `shutil.copy2` in a loop (lines 233-236),
driven by an oracle saying which individual copies the filesystem lets
through.  Returns the files copied before the first failure and whether
the whole loop completed; a failed copy is modelled as leaving no
destination file. -/
def copyUntilFail (files : List String) (copyOk : String → Bool) :
    List String × Bool :=
  match files with
  | [] => ([], true)
  | f :: rest =>
    if copyOk f then
      let res := copyUntilFail rest copyOk
      (f :: res.1, res.2)
    else ([], false)

/-- Embeds `ScreenshotUtils.set_base_screenshots` (lines 200-243): refuse
when base exists and is non-empty, or when `cur` is absent or empty;
otherwise create the base directory and copy the current files one by one,
with an exception mid-loop caught and turned into `False` — the files
already copied stay in place. -/
def set_base_screenshots (fs : FS) (copyOk : String → Bool) : Bool × FS :=
  if baseNonempty fs then (false, fs)
  else
    match fs.cur with
    | none => (false, fs)
    | some cfiles =>
      if cfiles.isEmpty then (false, fs)
      else
        let prev := fs.base.getD []
        let res := copyUntilFail cfiles copyOk
        (res.2,
         { fs with
            base := some (prev ++ res.1),
            baseContent := fun f =>
              if res.1.contains f then fs.curContent f else fs.baseContent f })

/-- Embeds `ScreenshotUtils.auto_set_base_if_successful` (lines 269-293):
skip (returning `False`, touching nothing) when base exists and is
non-empty or when `cur` is absent or empty; otherwise delegate to
`set_base_screenshots`.  The function receives no comparison summary. -/
def auto_set_base_if_successful (fs : FS) (copyOk : String → Bool) :
    Bool × FS :=
  if baseNonempty fs then (false, fs)
  else
    match fs.cur with
    | none => (false, fs)
    | some cfiles =>
      if cfiles.isEmpty then (false, fs)
      else set_base_screenshots fs copyOk

/-- StepKeys matched between the two listings: the key intersection
`compare_screenshots` iterates over. -/
def matchedKeys (bfiles cfiles : List String) : List String :=
  commonKeys (buildStepMap bfiles) (buildStepMap cfiles)

/-- Verdict `compare_screenshots` reaches for the matched key `k` given
the two listings and the two content maps. -/
def verdictAt (bfiles cfiles : List String) (bc cc : String → File)
    (k : String) : Verdict :=
  compareFiles (keyFile (buildStepMap bfiles) bc k)
    (keyFile (buildStepMap cfiles) cc k)

/-- Propositional form of the lexicographic comparison. -/
def strLeP (a b : String) : Prop := strLe a b = true

/-- A state whose matched pair is identical while the current listing
also holds a snapshot (`..._02_b.png`) whose StepKey has no baseline
counterpart. -/
def fsC2 : FS :=
  { base := some ["20240101_120000_01_a.png"],
    cur := some ["20240103_120000_01_a.png", "20240103_130000_02_b.png"],
    baseContent := fun _ => File.img 1 1 [0],
    curContent := fun _ => File.img 1 1 [0] }

/-- A state with a non-empty baseline holding one snapshot. -/
def fsC3 : FS :=
  { base := some ["20240101_100000_01_a.png"],
    cur := some ["20240102_100000_01_a.png"],
    baseContent := fun _ => File.img 1 1 [0],
    curContent := fun _ => File.img 1 1 [0] }

/-- A promotable state: no baseline, one current snapshot. -/
def fsC3b : FS :=
  { base := none,
    cur := some ["20240102_100000_01_a.png"],
    baseContent := fun _ => File.img 1 1 [0],
    curContent := fun _ => File.img 1 1 [0] }

/-- Copy oracle that lets every per-file copy succeed. -/
def okAll : String → Bool := fun _ => true

/-- A promotable state with two current snapshots. -/
def fsC4 : FS :=
  { base := none,
    cur := some ["20240102_100000_01_a.png", "20240102_100001_02_b.png"],
    baseContent := fun _ => File.img 1 1 [0],
    curContent := fun _ => File.img 1 1 [0] }

/-- Copy oracle under which only the first of `fsC4`'s current files
copies successfully. -/
def okC4 : String → Bool := fun f => f == "20240102_100000_01_a.png"

/-- Base content for the four-pair comparison state `fsC6`. -/
def baseContentC6 : String → File := fun f =>
  if f = "20240101_100000_01_err.png" then File.corrupt "boom"
  else if f = "20240101_100001_02_size.png" then File.img 1 1 [0]
  else if f = "20240101_100003_04_diff.png" then File.img 1 1 [1]
  else File.img 1 1 [5]

/-- Current content for the four-pair comparison state `fsC6`. -/
def curContentC6 : String → File := fun f =>
  if f = "20240102_100001_02_size.png" then File.img 2 1 [0, 0]
  else if f = "20240102_100003_04_diff.png" then File.img 1 1 [2]
  else File.img 1 1 [5]

/-- A state with four matched pairs: a corrupt baseline image, a size
mismatch, an identical pair and a differing pair. -/
def fsC6 : FS :=
  { base := some ["20240101_100000_01_err.png", "20240101_100001_02_size.png",
                  "20240101_100002_03_ok.png", "20240101_100003_04_diff.png"],
    cur := some ["20240102_100000_01_err.png", "20240102_100001_02_size.png",
                 "20240102_100002_03_ok.png", "20240102_100003_04_diff.png"],
    baseContent := baseContentC6,
    curContent := curContentC6 }

/-- A state whose current directory holds one snapshot. -/
def fsC7 : FS :=
  { base := none,
    cur := some ["20240101_120000_01_a.png"],
    baseContent := fun _ => File.img 1 1 [0],
    curContent := fun _ => File.img 1 1 [0] }

/-- Content map for the key-collision states: one baseline capture of the
colliding key differs from the current image, the other is identical to
it. -/
def contentC9 : String → File := fun f =>
  if f = "20240102_120000_01_a.png" then File.img 1 1 [1]
  else File.img 1 1 [0]

/-- Two baseline captures of the same StepKey (their timestamps agree on
the time of day), listed in one order. -/
def fsC9a : FS :=
  { base := some ["20240101_120000_01_a.png", "20240102_120000_01_a.png"],
    cur := some ["20240105_120000_01_a.png"],
    baseContent := contentC9,
    curContent := contentC9 }

/-- The same files as `fsC9a` with the baseline listed in the other
order. -/
def fsC9b : FS :=
  { base := some ["20240102_120000_01_a.png", "20240101_120000_01_a.png"],
    cur := some ["20240105_120000_01_a.png"],
    baseContent := contentC9,
    curContent := contentC9 }

theorem charListLe_total (as : List Char) :
    ∀ bs, charListLe as bs = true ∨ charListLe bs as = true := by
  induction as with
  | nil => intro bs; left; rfl
  | cons a as ih =>
    intro bs
    cases bs with
    | nil => right; rfl
    | cons b bs =>
      simp only [charListLe]
      rcases Nat.lt_trichotomy a.toNat b.toNat with h | h | h
      · left; simp [h]
      · have h1 : ¬ a.toNat < b.toNat := by omega
        have h2 : ¬ b.toNat < a.toNat := by omega
        rcases ih bs with h3 | h3
        · left; simp [h1, h2, h3]
        · right; simp [h1, h2, h3]
      · right; simp [h]

theorem charListLe_trans (as : List Char) :
    ∀ bs cs, charListLe as bs = true → charListLe bs cs = true →
      charListLe as cs = true := by
  induction as with
  | nil => intro bs cs _ _; rfl
  | cons a as ih =>
    intro bs cs h1 h2
    cases bs with
    | nil => simp [charListLe] at h1
    | cons b bs =>
      cases cs with
      | nil => simp [charListLe] at h2
      | cons c cs =>
        simp only [charListLe] at h1 h2 ⊢
        by_cases hab : a.toNat < b.toNat
        · by_cases hbc : b.toNat < c.toNat
          · have hac : a.toNat < c.toNat := Nat.lt_trans hab hbc
            simp [hac]
          · have hba : ¬ b.toNat < a.toNat := by omega
            by_cases hcb : c.toNat < b.toNat
            · simp [hbc, hcb] at h2
            · have hbcEq : b.toNat = c.toNat := by omega
              have hac : a.toNat < c.toNat := by omega
              simp [hac]
        · by_cases hba : b.toNat < a.toNat
          · simp [hab, hba] at h1
          · have habEq : a.toNat = b.toNat := by omega
            simp [hab, hba] at h1
            by_cases hbc : b.toNat < c.toNat
            · have hac : a.toNat < c.toNat := by omega
              simp [hac]
            · by_cases hcb : c.toNat < b.toNat
              · simp [hbc, hcb] at h2
              · simp [hbc, hcb] at h2
                have hac : ¬ a.toNat < c.toNat := by omega
                have hca : ¬ c.toNat < a.toNat := by omega
                simp [hac, hca]
                exact ih bs cs h1 h2

theorem charListLe_antisymm (as : List Char) :
    ∀ bs, charListLe as bs = true → charListLe bs as = true → as = bs := by
  induction as with
  | nil =>
    intro bs _ h2
    cases bs with
    | nil => rfl
    | cons b bs => simp [charListLe] at h2
  | cons a as ih =>
    intro bs h1 h2
    cases bs with
    | nil => simp [charListLe] at h1
    | cons b bs =>
      simp only [charListLe] at h1 h2
      by_cases hab : a.toNat < b.toNat
      · have hba : ¬ b.toNat < a.toNat := by omega
        simp [hab, hba] at h2
      · by_cases hba : b.toNat < a.toNat
        · simp [hab, hba] at h1
        · simp [hab, hba] at h1 h2
          have hvn : a.toNat = b.toNat := by omega
          have hv : a = b := Char.ext (UInt32.ext hvn)
          rw [hv, ih bs h1 h2]

theorem strLe_total (a b : String) : strLe a b = true ∨ strLe b a = true :=
  charListLe_total a.data b.data

theorem strLe_trans {a b c : String} (h1 : strLe a b = true)
    (h2 : strLe b c = true) : strLe a c = true :=
  charListLe_trans a.data b.data c.data h1 h2

theorem strLe_antisymm {a b : String} (h1 : strLe a b = true)
    (h2 : strLe b a = true) : a = b := by
  cases a; cases b
  exact congrArg String.mk (charListLe_antisymm _ _ h1 h2)

theorem insertSorted_perm (k : String) (l : List String) :
    List.Perm (insertSorted k l) (k :: l) := by
  induction l with
  | nil => exact List.Perm.refl _
  | cons x xs ih =>
    simp only [insertSorted]
    cases strLe k x
    · simp only [Bool.false_eq_true, if_false]
      exact (ih.cons x).trans (List.Perm.swap k x xs)
    · simp only [if_true]
      exact List.Perm.refl _

theorem sortKeys_perm (l : List String) : List.Perm (sortKeys l) l := by
  induction l with
  | nil => exact List.Perm.refl _
  | cons k ks ih =>
    exact (insertSorted_perm k (sortKeys ks)).trans (ih.cons k)

theorem insertSorted_sorted (k : String) (l : List String)
    (h : l.Pairwise strLeP) : (insertSorted k l).Pairwise strLeP := by
  induction l with
  | nil => simp [insertSorted]
  | cons x xs ih =>
    rcases List.pairwise_cons.mp h with ⟨hx, hxs⟩
    simp only [insertSorted]
    cases hkx : strLe k x
    · simp only [Bool.false_eq_true, if_false]
      refine List.pairwise_cons.mpr ⟨?_, ih hxs⟩
      intro y hy
      rcases List.mem_cons.mp ((insertSorted_perm k xs).mem_iff.mp hy) with hy2 | hy2
      · subst hy2
        rcases strLe_total x y with h3 | h3
        · exact h3
        · rw [hkx] at h3; exact absurd h3 (by simp)
      · exact hx y hy2
    · simp only [if_true]
      refine List.pairwise_cons.mpr ⟨?_, h⟩
      intro y hy
      rcases List.mem_cons.mp hy with hy2 | hy2
      · subst hy2; exact hkx
      · exact strLe_trans hkx (hx y hy2)

theorem sortKeys_sorted (l : List String) :
    (sortKeys l).Pairwise strLeP := by
  induction l with
  | nil => simp [sortKeys]
  | cons k ks ih => exact insertSorted_sorted k (sortKeys ks) ih

theorem sortKeys_eq_of_same_mem {l₁ l₂ : List String} (h₁ : l₁.Nodup)
    (h₂ : l₂.Nodup) (hm : ∀ x, x ∈ l₁ ↔ x ∈ l₂) :
    sortKeys l₁ = sortKeys l₂ := by
  have hp : List.Perm l₁ l₂ := (List.perm_ext_iff_of_nodup h₁ h₂).mpr hm
  exact @List.eq_of_perm_of_sorted String strLeP
    ⟨fun _ _ h1 h2 => strLe_antisymm h1 h2⟩ _ _
    ((sortKeys_perm l₁).trans (hp.trans (sortKeys_perm l₂).symm))
    (sortKeys_sorted l₁) (sortKeys_sorted l₂)

theorem diffEntry_eq_none {k : String} {v : Verdict} :
    diffEntry k v = none ↔ v = Verdict.identical := by
  cases v <;> simp [diffEntry]

theorem compareLoop_eq (bf cf : String → File) (ks : List String) :
    compareLoop bf cf ks =
      (ks.filter (fun k => (diffEntry k (compareFiles (bf k) (cf k))).isNone),
       ks.filterMap (fun k => diffEntry k (compareFiles (bf k) (cf k)))) := by
  induction ks with
  | nil => rfl
  | cons k rest ih =>
    simp only [compareLoop, ih, List.filter_cons, List.filterMap_cons]
    cases h : diffEntry k (compareFiles (bf k) (cf k)) <;> simp [h]

theorem compareLoop_congr (bf1 cf1 bf2 cf2 : String → File)
    (ks : List String) (h : ∀ k ∈ ks, bf1 k = bf2 k ∧ cf1 k = cf2 k) :
    compareLoop bf1 cf1 ks = compareLoop bf2 cf2 ks := by
  induction ks with
  | nil => rfl
  | cons k rest ih =>
    have hk := h k (List.mem_cons_self k rest)
    have hrest := ih (fun j hj => h j (List.mem_cons_of_mem k hj))
    simp only [compareLoop, hrest, hk.1, hk.2]

theorem copyUntilFail_append (files : List String) (ok : String → Bool) :
    ∃ rest, files = (copyUntilFail files ok).1 ++ rest := by
  induction files with
  | nil => exact ⟨[], rfl⟩
  | cons f fs ih =>
    cases h : ok f
    · exact ⟨f :: fs, by simp [copyUntilFail, h]⟩
    · obtain ⟨r, hr⟩ := ih
      refine ⟨r, ?_⟩
      simp only [copyUntilFail, h, if_true, List.cons_append]
      exact congrArg (f :: ·) hr

theorem copyUntilFail_success (files : List String) (ok : String → Bool)
    (h : (copyUntilFail files ok).2 = true) :
    (copyUntilFail files ok).1 = files := by
  induction files with
  | nil => rfl
  | cons f fs ih =>
    cases hf : ok f
    · simp [copyUntilFail, hf] at h
    · simp only [copyUntilFail, hf, if_true] at h ⊢
      exact congrArg (f :: ·) (ih h)

theorem mem_buildStepMap {l : List String} {k f : String} :
    (k, f) ∈ buildStepMap l ↔ f ∈ l ∧ extract_step_info f = some k := by
  simp only [buildStepMap, List.mem_filterMap, Option.map_eq_some']
  constructor
  · rintro ⟨a, ha, k2, hk2, hpair⟩
    obtain ⟨h1, h2⟩ := Prod.mk.injEq .. ▸ hpair
    exact ⟨h2 ▸ ha, by rw [h2] at hk2; rw [hk2, h1]⟩
  · rintro ⟨hf, hk⟩
    exact ⟨f, hf, k, hk, rfl⟩

theorem lookupLast_mem {m : List (String × String)} {k f : String}
    (h : lookupLast m k = some f) : (k, f) ∈ m := by
  induction m with
  | nil => simp [lookupLast] at h
  | cons e rest ih =>
    obtain ⟨k2, g⟩ := e
    simp only [lookupLast] at h
    cases hrest : lookupLast rest k with
    | some r =>
      rw [hrest] at h
      exact List.mem_cons_of_mem _ (ih (hrest.trans h))
    | none =>
      rw [hrest] at h
      by_cases hk : k2 = k
      · simp only [hk, if_true, Option.some.injEq] at h
        subst hk; subst h
        exact List.mem_cons_self _ _
      · simp [hk] at h

theorem lookupLast_isSome_of_mem {m : List (String × String)} {k f : String}
    (h : (k, f) ∈ m) : (lookupLast m k).isSome = true := by
  induction m with
  | nil => simp at h
  | cons e rest ih =>
    obtain ⟨k2, g⟩ := e
    simp only [lookupLast]
    cases hrest : lookupLast rest k with
    | some r => rfl
    | none =>
      rcases List.mem_cons.mp h with h1 | h1
      · obtain ⟨h2, _⟩ := Prod.mk.injEq .. ▸ h1.symm
        simp [h2]
      · have := ih h1
        rw [hrest] at this
        simp at this

theorem mem_dictKeys {m : List (String × String)} {k : String} :
    k ∈ dictKeys m ↔ ∃ f, (k, f) ∈ m := by
  simp only [dictKeys, List.mem_dedup, List.mem_map]
  constructor
  · rintro ⟨⟨k2, f⟩, hm, hk⟩
    exact ⟨f, hk ▸ hm⟩
  · rintro ⟨f, hf⟩
    exact ⟨(k, f), hf, rfl⟩

theorem mem_commonKeys {bm cm : List (String × String)} {k : String} :
    k ∈ commonKeys bm cm ↔ (∃ f, (k, f) ∈ bm) ∧ ∃ g, (k, g) ∈ cm := by
  simp only [commonKeys, List.mem_filter, List.contains_iff_exists_mem_beq,
    beq_iff_eq]
  constructor
  · rintro ⟨h1, k2, hk2, hkeq⟩
    subst hkeq
    exact ⟨mem_dictKeys.mp h1, mem_dictKeys.mp hk2⟩
  · rintro ⟨h1, h2⟩
    exact ⟨mem_dictKeys.mpr h1, k, mem_dictKeys.mpr h2, rfl⟩

theorem commonKeys_nodup (bm cm : List (String × String)) :
    (commonKeys bm cm).Nodup :=
  (List.nodup_dedup _).filter _

theorem compare_screenshots_not_comparable (fs : FS)
    (h : fs.base = none ∨ fs.cur = none ∨ fs.base = some [] ∨
      fs.cur = some []) :
    compare_screenshots fs = (false, [], []) := by
  obtain ⟨b, c, bc, cc⟩ := fs
  rcases h with h | h | h | h <;> simp only at h <;> subst h
  · rfl
  · cases b <;> rfl
  · cases c with
    | none => rfl
    | some cl =>
      simp [compare_screenshots, commonKeys, dictKeys, buildStepMap]
  · cases b with
    | none => rfl
    | some bl =>
      simp [compare_screenshots, commonKeys, dictKeys, buildStepMap,
        List.filter_eq_nil_iff]

theorem compare_screenshots_run {bfiles cfiles : List String}
    {bc cc : String → File} (h : matchedKeys bfiles cfiles ≠ []) :
    compare_screenshots ⟨some bfiles, some cfiles, bc, cc⟩ =
      (((sortKeys (matchedKeys bfiles cfiles)).filterMap
          (fun k => diffEntry k (verdictAt bfiles cfiles bc cc k))).isEmpty,
       (sortKeys (matchedKeys bfiles cfiles)).filter
          (fun k => (diffEntry k (verdictAt bfiles cfiles bc cc k)).isNone),
       (sortKeys (matchedKeys bfiles cfiles)).filterMap
          (fun k => diffEntry k (verdictAt bfiles cfiles bc cc k))) := by
  have hne : (commonKeys (buildStepMap bfiles) (buildStepMap cfiles)).isEmpty
      = false := by
    rw [List.isEmpty_eq_false]
    exact h
  simp only [compare_screenshots, hne, Bool.false_eq_true, if_false,
    compareLoop_eq, matchedKeys, verdictAt]
  cases hD : ((sortKeys (commonKeys (buildStepMap bfiles)
      (buildStepMap cfiles))).filterMap
        (fun k => diffEntry k (compareFiles (keyFile (buildStepMap bfiles) bc k)
          (keyFile (buildStepMap cfiles) cc k)))).isEmpty <;>
    simp [hD]

theorem lookupLast_buildStepMap_congr {l1 l2 : List String}
    (hm : ∀ x, x ∈ l1 ↔ x ∈ l2)
    (inj : ∀ f g k2, f ∈ l1 → g ∈ l1 → extract_step_info f = some k2 →
      extract_step_info g = some k2 → f = g) (k : String) :
    lookupLast (buildStepMap l1) k = lookupLast (buildStepMap l2) k := by
  cases h1 : lookupLast (buildStepMap l1) k with
  | none =>
    cases h2 : lookupLast (buildStepMap l2) k with
    | none => rfl
    | some f2 =>
      have hmem := mem_buildStepMap.mp (lookupLast_mem h2)
      have hin : (k, f2) ∈ buildStepMap l1 :=
        mem_buildStepMap.mpr ⟨(hm f2).mpr hmem.1, hmem.2⟩
      have hs := lookupLast_isSome_of_mem hin
      rw [h1] at hs
      simp at hs
  | some f1 =>
    cases h2 : lookupLast (buildStepMap l2) k with
    | none =>
      have hmem := mem_buildStepMap.mp (lookupLast_mem h1)
      have hin : (k, f1) ∈ buildStepMap l2 :=
        mem_buildStepMap.mpr ⟨(hm f1).mp hmem.1, hmem.2⟩
      have hs := lookupLast_isSome_of_mem hin
      rw [h2] at hs
      simp at hs
    | some f2 =>
      have hm1 := mem_buildStepMap.mp (lookupLast_mem h1)
      have hm2 := mem_buildStepMap.mp (lookupLast_mem h2)
      rw [inj f1 f2 k hm1.1 ((hm f2).mpr hm2.1) hm1.2 hm2.2]

theorem keyFile_congr {l1 l2 : List String} (content : String → File)
    (hm : ∀ x, x ∈ l1 ↔ x ∈ l2)
    (inj : ∀ f g k2, f ∈ l1 → g ∈ l1 → extract_step_info f = some k2 →
      extract_step_info g = some k2 → f = g) (k : String) :
    keyFile (buildStepMap l1) content k =
      keyFile (buildStepMap l2) content k := by
  simp only [keyFile, lookupLast_buildStepMap_congr hm inj k]

theorem commonKeys_mem_congr {b1 b2 c1 c2 : List String}
    (hmb : ∀ x, x ∈ b1 ↔ x ∈ b2) (hmc : ∀ x, x ∈ c1 ↔ x ∈ c2) (k : String) :
    k ∈ commonKeys (buildStepMap b1) (buildStepMap c1) ↔
      k ∈ commonKeys (buildStepMap b2) (buildStepMap c2) := by
  simp only [mem_commonKeys, mem_buildStepMap]
  constructor <;> rintro ⟨⟨f, hf, hfk⟩, ⟨g, hg, hgk⟩⟩
  · exact ⟨⟨f, (hmb f).mp hf, hfk⟩, ⟨g, (hmc g).mp hg, hgk⟩⟩
  · exact ⟨⟨f, (hmb f).mpr hf, hfk⟩, ⟨g, (hmc g).mpr hg, hgk⟩⟩

theorem compare_screenshots_no_common {bfiles cfiles : List String}
    {bc cc : String → File} (h : matchedKeys bfiles cfiles = []) :
    compare_screenshots ⟨some bfiles, some cfiles, bc, cc⟩ =
      (false, [], []) := by
  simp only [matchedKeys] at h
  simp [compare_screenshots, h]

/-- C1: the spec requires a StepKey to be a function of the step label
and human name alone, but the extractor's left-to-right split puts the
time-of-day fragment of the capture timestamp into the key: two filenames
produced by `save_screenshot` for step `01` and name `login`, differing
only in their capture timestamps, extract to different StepKeys. -/
theorem C1_step_key_depends_on_timestamp :
    save_screenshot "com.monoxer" "login" "01" "20240101_120000"
        (Except.ok ()) =
      Except.ok
        "tests/com.monoxer/screenshots/cur/20240101_120000_01_login.png" ∧
    extract_step_info "20240101_120000_01_login.png" =
      some "120000_01_login.png" ∧
    extract_step_info "20240101_120001_01_login.png" =
      some "120001_01_login.png" ∧
    ("120000_01_login.png" : String) ≠ "120001_01_login.png" :=
  ⟨rfl, by decide, by decide, by decide⟩

/-- C7 counterexample: starting from an existing current directory,
`clear_screenshot_directory` succeeds but deletes the directory without
recreating it (so it does not "exist again and be empty"), and a second
clear also succeeds yet ends in a different final state (present and
empty) than the first (absent). -/
theorem C7_counterexample :
    fsC7.cur = some ["20240101_120000_01_a.png"] ∧
    (clear_screenshot_directory fsC7).1 = true ∧
    (clear_screenshot_directory fsC7).2.cur = none ∧
    (clear_screenshot_directory (clear_screenshot_directory fsC7).2).1 =
      true ∧
    (clear_screenshot_directory (clear_screenshot_directory fsC7).2).2.cur =
      some [] :=
  ⟨rfl, rfl, rfl, rfl, rfl⟩

/-- C7 amended: `clear_screenshot_directory` always reports success and
never touches the baseline, but instead of leaving an existing-and-empty
directory it toggles the state: an existing current directory is deleted
and not recreated, an absent one is created empty. -/
theorem C7_clear_succeeds_but_toggles :
    ∀ fs : FS,
      (clear_screenshot_directory fs).1 = true ∧
      (clear_screenshot_directory fs).2.base = fs.base ∧
      (clear_screenshot_directory fs).2.cur =
        (match fs.cur with
         | some _ => none
         | none => some []) := by
  intro fs
  obtain ⟨b, c, bc, cc⟩ := fs
  cases c <;> exact ⟨rfl, rfl, rfl⟩

/-- C8 counterexample: when the filesystem or driver rejects the write,
`save_screenshot` logs and re-raises, so the exception escapes to the
caller instead of being returned as a store-error result. -/
theorem C8_counterexample :
    save_screenshot "com.monoxer" "login" "01" "20240101_120000"
        (Except.error "disk full") = Except.error "disk full" := rfl

/-- C8 amended: `save_screenshot` returns the built path when the write
succeeds, and on a filesystem failure it re-raises the exception (after
logging) rather than returning an error result. -/
theorem C8_put_returns_path_or_reraises :
    ∀ (pkg nm step_num now e : String),
      save_screenshot pkg nm step_num now (Except.ok ()) =
        Except.ok ((get_screenshot_dirs pkg).2 ++ "/" ++ now ++ "_" ++
          step_num ++ "_" ++ nm ++ ".png") ∧
      save_screenshot pkg nm step_num now (Except.error e) =
        Except.error e := by
  intro pkg nm step_num now e
  exact ⟨rfl, rfl⟩

/-- C4 counterexample: from an absent baseline, a promotion whose second
per-file copy fails returns failure but leaves the baseline holding
exactly the first of the two current files — a partially populated
baseline is observable and the baseline state was changed on error. -/
theorem C4_counterexample :
    fsC4.base = none ∧
    fsC4.cur = some ["20240102_100000_01_a.png",
      "20240102_100001_02_b.png"] ∧
    (set_base_screenshots fsC4 okC4).1 = false ∧
    (set_base_screenshots fsC4 okC4).2.base =
      some ["20240102_100000_01_a.png"] :=
  ⟨rfl, rfl, by decide, by decide⟩

/-- C4 amended: promotion copies current files one by one with no staging
directory; its success flag is the copy loop's outcome, and the resulting
baseline holds exactly the files copied before the first failure, which
form a prefix of the current listing — so a mid-copy failure leaves a
partially populated baseline in place. -/
theorem C4_promote_failure_leaves_copied_files :
    ∀ (fs : FS) (ok : String → Bool) (cfiles : List String),
      baseNonempty fs = false → fs.cur = some cfiles → cfiles ≠ [] →
      (set_base_screenshots fs ok).1 = (copyUntilFail cfiles ok).2 ∧
      (set_base_screenshots fs ok).2.base =
        some (fs.base.getD [] ++ (copyUntilFail cfiles ok).1) ∧
      ∃ rest, cfiles = (copyUntilFail cfiles ok).1 ++ rest := by
  intro fs ok cfiles hg hc hne
  have hemp : cfiles.isEmpty = false := List.isEmpty_eq_false.mpr hne
  refine ⟨?_, ?_, copyUntilFail_append cfiles ok⟩ <;>
    simp [set_base_screenshots, hg, hc, hemp]

/-- C4 witness: the amended statement evaluated on the two-file state
whose second copy fails. -/
theorem C4_witness :
    (set_base_screenshots fsC4 okC4).1 =
      (copyUntilFail ["20240102_100000_01_a.png",
        "20240102_100001_02_b.png"] okC4).2 ∧
    (set_base_screenshots fsC4 okC4).2.base =
      some (fsC4.base.getD [] ++ (copyUntilFail ["20240102_100000_01_a.png",
        "20240102_100001_02_b.png"] okC4).1) ∧
    ∃ rest, ["20240102_100000_01_a.png", "20240102_100001_02_b.png"] =
      (copyUntilFail ["20240102_100000_01_a.png",
        "20240102_100001_02_b.png"] okC4).1 ++ rest :=
  C4_promote_failure_leaves_copied_files fsC4 okC4 _ (by decide) rfl
    (by decide)

/-- C3: neither guarded promotion nor auto-promotion ever mutates a
non-empty baseline — both return failure and leave the state exactly
unchanged — and consequently a second promotion right after a successful
one fails and leaves the state of the first promotion unchanged. -/
theorem C3_promotion_guard :
    (∀ (fs : FS) (ok : String → Bool) (bl : List String),
        fs.base = some bl → bl ≠ [] →
        set_base_screenshots fs ok = (false, fs) ∧
        auto_set_base_if_successful fs ok = (false, fs)) ∧
    (∀ (fs fs2 : FS) (ok ok2 : String → Bool),
        set_base_screenshots fs ok = (true, fs2) →
        set_base_screenshots fs2 ok2 = (false, fs2)) := by
  constructor
  · intro fs ok bl hb hne
    have hguard : baseNonempty fs = true := by
      simp [baseNonempty, hb, List.isEmpty_eq_false, hne]
    constructor
    · simp [set_base_screenshots, hguard]
    · simp [auto_set_base_if_successful, hguard]
  · intro fs fs2 ok ok2 h
    have hg2 : baseNonempty fs = false := by
      cases hb : baseNonempty fs
      · rfl
      · simp [set_base_screenshots, hb] at h
    rw [set_base_screenshots, hg2] at h
    simp only [Bool.false_eq_true, if_false] at h
    cases hcur : fs.cur with
    | none => rw [hcur] at h; simp at h
    | some cfiles =>
      rw [hcur] at h
      cases hemp : cfiles.isEmpty
      · simp only [hemp, Bool.false_eq_true, if_false] at h
        rw [Prod.mk.injEq] at h
        obtain ⟨hres, hfs2⟩ := h
        have hcopied : (copyUntilFail cfiles ok).1 = cfiles :=
          copyUntilFail_success cfiles ok hres
        have hbase2 : fs2.base =
            some (fs.base.getD [] ++ (copyUntilFail cfiles ok).1) := by
          rw [← hfs2]
        have hne2 : (fs.base.getD [] ++ (copyUntilFail cfiles ok).1) ≠ [] := by
          rw [hcopied]
          simp only [ne_eq, List.append_eq_nil, not_and]
          intro _
          exact List.isEmpty_eq_false.mp hemp
        have hguard2 : baseNonempty fs2 = true := by
          simp [baseNonempty, hbase2, List.isEmpty_eq_false, hne2]
        simp [set_base_screenshots, hguard2]
      · simp [hemp] at h

/-- C3 witness: the guard evaluated on a state with a one-file baseline,
and refusal of an immediate second promotion after one that succeeded. -/
theorem C3_witness :
    (set_base_screenshots fsC3 okAll = (false, fsC3) ∧
     auto_set_base_if_successful fsC3 okAll = (false, fsC3)) ∧
    set_base_screenshots (set_base_screenshots fsC3b okAll).2 okAll =
      (false, (set_base_screenshots fsC3b okAll).2) := by
  constructor
  · exact C3_promotion_guard.1 fsC3 okAll _ rfl (by decide)
  · exact C3_promotion_guard.2 fsC3b _ okAll okAll rfl

/-- C10: auto-promotion consults no comparison summary; it forwards to
guarded promotion exactly when the baseline is absent or empty and the
current set exists and is non-empty (the promotion's outcome being the
copy loop's), and in every other state it returns failure with the state
untouched. -/
theorem C10_auto_promotion_summary_independent :
    (∀ (fs : FS) (ok : String → Bool),
        baseNonempty fs = true ∨ fs.cur = none ∨ fs.cur = some [] →
        auto_set_base_if_successful fs ok = (false, fs)) ∧
    (∀ (fs : FS) (ok : String → Bool) (cfiles : List String),
        baseNonempty fs = false → fs.cur = some cfiles → cfiles ≠ [] →
        auto_set_base_if_successful fs ok = set_base_screenshots fs ok ∧
        (auto_set_base_if_successful fs ok).1 =
          (copyUntilFail cfiles ok).2) := by
  constructor
  · intro fs ok h
    rcases h with h | h | h
    · simp [auto_set_base_if_successful, h]
    · cases hb : baseNonempty fs <;>
        simp [auto_set_base_if_successful, hb, h]
    · cases hb : baseNonempty fs <;>
        simp [auto_set_base_if_successful, hb, h]
  · intro fs ok cfiles hg hc hne
    have hemp : cfiles.isEmpty = false := List.isEmpty_eq_false.mpr hne
    constructor
    · simp [auto_set_base_if_successful, hg, hc, hemp]
    · simp [auto_set_base_if_successful, set_base_screenshots, hg, hc, hemp]

/-- C10 witness: the skip case on a non-empty baseline and the forwarding
case on a promotable state. -/
theorem C10_witness :
    auto_set_base_if_successful fsC3 okAll = (false, fsC3) ∧
    auto_set_base_if_successful fsC3b okAll =
      set_base_screenshots fsC3b okAll ∧
    (auto_set_base_if_successful fsC3b okAll).1 =
      (copyUntilFail ["20240102_100000_01_a.png"] okAll).2 := by
  refine ⟨C10_auto_promotion_summary_independent.1 fsC3 okAll
    (Or.inl (by decide)), ?_, ?_⟩
  · exact (C10_auto_promotion_summary_independent.2 fsC3b okAll _
      (by decide) rfl (by decide)).1
  · exact (C10_auto_promotion_summary_independent.2 fsC3b okAll _
      (by decide) rfl (by decide)).2

/-- C2 counterexample: in a state whose single matched pair is identical
while the current set holds an extra snapshot with a StepKey absent from
the baseline, `compare_screenshots` reports an overall pass and the extra
key appears nowhere in the returned lists. -/
theorem C2_counterexample :
    compare_screenshots fsC2 = (true, ["120000_01_a.png"], []) ∧
    extract_step_info "20240103_130000_02_b.png" =
      some "130000_02_b.png" ∧
    matchedKeys ["20240101_120000_01_a.png"]
        ["20240103_120000_01_a.png", "20240103_130000_02_b.png"] =
      ["120000_01_a.png"] :=
  ⟨by decide, by decide, by decide⟩

/-- C2 amended: when at least one StepKey is matched, the overall flag is
true exactly when every matched pair compares identical; StepKeys present
on only one side play no role — they do not enter the verdict and the
returned lists mention matched keys only. -/
theorem C2_pass_verdict_ignores_unmatched :
    ∀ (bfiles cfiles : List String) (bc cc : String → File),
      matchedKeys bfiles cfiles ≠ [] →
      (((compare_screenshots ⟨some bfiles, some cfiles, bc, cc⟩).1 = true) ↔
        ∀ k ∈ matchedKeys bfiles cfiles,
          verdictAt bfiles cfiles bc cc k = Verdict.identical) ∧
      (∀ x ∈ (compare_screenshots ⟨some bfiles, some cfiles, bc, cc⟩).2.1,
        x ∈ matchedKeys bfiles cfiles) ∧
      (∀ x ∈ (compare_screenshots ⟨some bfiles, some cfiles, bc, cc⟩).2.2,
        ∃ k ∈ matchedKeys bfiles cfiles,
          diffEntry k (verdictAt bfiles cfiles bc cc k) = some x) := by
  intro bfiles cfiles bc cc hne
  rw [compare_screenshots_run hne]
  refine ⟨?_, ?_, ?_⟩
  · simp only [List.isEmpty_iff, List.filterMap_eq_nil_iff]
    constructor
    · intro h k hk
      exact diffEntry_eq_none.mp (h k ((sortKeys_perm _).mem_iff.mpr hk))
    · intro h k hk
      exact diffEntry_eq_none.mpr (h k ((sortKeys_perm _).mem_iff.mp hk))
  · intro x hx
    exact (sortKeys_perm _).mem_iff.mp (List.mem_filter.mp hx).1
  · intro x hx
    obtain ⟨k, hk, hke⟩ := List.mem_filterMap.mp hx
    exact ⟨k, (sortKeys_perm _).mem_iff.mp hk, hke⟩

/-- C2 witness: the amended verdict equivalence evaluated on the state of
the counterexample. -/
theorem C2_witness :
    ((compare_screenshots ⟨some ["20240101_120000_01_a.png"],
        some ["20240103_120000_01_a.png", "20240103_130000_02_b.png"],
        (fun _ => File.img 1 1 [0]), (fun _ => File.img 1 1 [0])⟩).1 =
          true ↔
      ∀ k ∈ matchedKeys ["20240101_120000_01_a.png"]
          ["20240103_120000_01_a.png", "20240103_130000_02_b.png"],
        verdictAt ["20240101_120000_01_a.png"]
          ["20240103_120000_01_a.png", "20240103_130000_02_b.png"]
          (fun _ => File.img 1 1 [0]) (fun _ => File.img 1 1 [0]) k =
          Verdict.identical) :=
  (C2_pass_verdict_ignores_unmatched _ _ _ _ (by decide)).1

/-- C5: an absent or empty baseline or current side yields the fixed
not-comparable result `(False, [], [])`, which no completed comparison
run can produce — a run over at least one matched key that reports
`False` always carries a non-empty differences list — and clearing the
current directory (with no further puts) leaves an empty or absent
current listing whose comparison is exactly that not-comparable
result. -/
theorem C5_not_comparable_vs_failing :
    (∀ fs : FS, (fs.base = none ∨ fs.cur = none ∨ fs.base = some [] ∨
        fs.cur = some []) → compare_screenshots fs = (false, [], [])) ∧
    (∀ (bfiles cfiles : List String) (bc cc : String → File),
        matchedKeys bfiles cfiles ≠ [] →
        (compare_screenshots ⟨some bfiles, some cfiles, bc, cc⟩).1 =
          false →
        (compare_screenshots ⟨some bfiles, some cfiles, bc, cc⟩).2.2 ≠
          []) ∧
    (∀ fs : FS,
        ((clear_screenshot_directory fs).2.cur = none ∨
         (clear_screenshot_directory fs).2.cur = some []) ∧
        compare_screenshots (clear_screenshot_directory fs).2 =
          (false, [], [])) := by
  refine ⟨compare_screenshots_not_comparable, ?_, ?_⟩
  · intro bfiles cfiles bc cc hne hflag
    rw [compare_screenshots_run hne] at hflag ⊢
    exact List.isEmpty_eq_false.mp hflag
  · intro fs
    have hcur : (clear_screenshot_directory fs).2.cur = none ∨
        (clear_screenshot_directory fs).2.cur = some [] := by
      obtain ⟨b, c, bc, cc⟩ := fs
      cases c
      · right; rfl
      · left; rfl
    refine ⟨hcur, compare_screenshots_not_comparable _ ?_⟩
    rcases hcur with h | h
    · exact Or.inr (Or.inl h)
    · exact Or.inr (Or.inr (Or.inr h))

/-- C5 witness: the not-comparable result on an absent baseline, the
non-empty differences list of a failing run, and the effect of a clear
followed by a comparison. -/
theorem C5_witness :
    compare_screenshots ⟨none, some [], (fun _ => File.img 1 1 [0]),
        (fun _ => File.img 1 1 [0])⟩ = (false, [], []) ∧
    (compare_screenshots ⟨some ["20240101_100000_01_err.png",
        "20240101_100001_02_size.png", "20240101_100002_03_ok.png",
        "20240101_100003_04_diff.png"],
      some ["20240102_100000_01_err.png", "20240102_100001_02_size.png",
        "20240102_100002_03_ok.png", "20240102_100003_04_diff.png"],
      baseContentC6, curContentC6⟩).2.2 ≠ [] ∧
    (((clear_screenshot_directory fsC7).2.cur = none ∨
      (clear_screenshot_directory fsC7).2.cur = some []) ∧
     compare_screenshots (clear_screenshot_directory fsC7).2 =
       (false, [], [])) :=
  ⟨C5_not_comparable_vs_failing.1 _ (Or.inl rfl),
   C5_not_comparable_vs_failing.2.1 _ _ _ _ (by decide) (by decide),
   C5_not_comparable_vs_failing.2.2 fsC7⟩

/-- C6: a bad matched pair never aborts the batch — every matched key
receives exactly its own entry in the output regardless of the other
pairs: a size mismatch contributes its size-mismatch line, a decode
failure contributes its error line (carrying the exception text), an
identical pair lands in the identical list and a differing pair in the
differences list; the comparison itself is a total function of the
state. -/
theorem C6_per_pair_isolation :
    ∀ (bfiles cfiles : List String) (bc cc : String → File),
      ∀ k ∈ matchedKeys bfiles cfiles,
        (verdictAt bfiles cfiles bc cc k = Verdict.sizeMismatch →
          ("Size mismatch: " ++ k) ∈
            (compare_screenshots ⟨some bfiles, some cfiles, bc, cc⟩).2.2) ∧
        (∀ m, verdictAt bfiles cfiles bc cc k = Verdict.error m →
          ("Error comparing " ++ k ++ ": " ++ m) ∈
            (compare_screenshots ⟨some bfiles, some cfiles, bc, cc⟩).2.2) ∧
        (verdictAt bfiles cfiles bc cc k = Verdict.identical →
          k ∈ (compare_screenshots ⟨some bfiles, some cfiles, bc,
            cc⟩).2.1) ∧
        (verdictAt bfiles cfiles bc cc k = Verdict.different →
          k ∈ (compare_screenshots ⟨some bfiles, some cfiles, bc,
            cc⟩).2.2) := by
  intro bfiles cfiles bc cc k hk
  have hne : matchedKeys bfiles cfiles ≠ [] := List.ne_nil_of_mem hk
  rw [compare_screenshots_run hne]
  have hks : k ∈ sortKeys (matchedKeys bfiles cfiles) :=
    (sortKeys_perm _).mem_iff.mpr hk
  refine ⟨?_, ?_, ?_, ?_⟩
  · intro hv
    exact List.mem_filterMap.mpr ⟨k, hks, by rw [hv]; rfl⟩
  · intro m hv
    exact List.mem_filterMap.mpr ⟨k, hks, by rw [hv]; rfl⟩
  · intro hv
    refine List.mem_filter.mpr ⟨hks, ?_⟩
    simp [hv, diffEntry]
  · intro hv
    exact List.mem_filterMap.mpr ⟨k, hks, by rw [hv]; rfl⟩

/-- C6 witness: the four-pair state — corrupt baseline image, size
mismatch, identical pair, differing pair — with each pair's entry present
in the output. -/
theorem C6_witness :
    ("Size mismatch: " ++ "100001_02_size.png") ∈
      (compare_screenshots fsC6).2.2 ∧
    ("Error comparing " ++ "100000_01_err.png" ++ ": " ++ "boom") ∈
      (compare_screenshots fsC6).2.2 ∧
    ("100002_03_ok.png" ∈ (compare_screenshots fsC6).2.1) ∧
    ("100003_04_diff.png" ∈ (compare_screenshots fsC6).2.2) := by
  refine ⟨?_, ?_, ?_, ?_⟩
  · exact (C6_per_pair_isolation _ _ baseContentC6 curContentC6
      "100001_02_size.png" (by decide)).1 (by decide)
  · exact (C6_per_pair_isolation _ _ baseContentC6 curContentC6
      "100000_01_err.png" (by decide)).2.1 "boom" (by decide)
  · exact (C6_per_pair_isolation _ _ baseContentC6 curContentC6
      "100002_03_ok.png" (by decide)).2.2.1 (by decide)
  · exact (C6_per_pair_isolation _ _ baseContentC6 curContentC6
      "100003_04_diff.png" (by decide)).2.2.2 (by decide)

/-- C9 counterexample: two listings of the same baseline file set (the
two files collide on one StepKey because their timestamps share a time of
day) produce different summaries — the matched file chosen for the
colliding key is whichever the listing iterates last, so the same
filesystem state can compare as a pass in one run and a failure in the
other. -/
theorem C9_counterexample :
    List.Perm ["20240101_120000_01_a.png", "20240102_120000_01_a.png"]
      ["20240102_120000_01_a.png", "20240101_120000_01_a.png"] ∧
    fsC9a.cur = fsC9b.cur ∧
    fsC9a.baseContent = fsC9b.baseContent ∧
    fsC9a.curContent = fsC9b.curContent ∧
    compare_screenshots fsC9a = (false, [], ["120000_01_a.png"]) ∧
    compare_screenshots fsC9b = (true, ["120000_01_a.png"], []) :=
  ⟨by decide, rfl, rfl, rfl, by decide, by decide⟩

/-- C9 amended: the matched StepKeys are processed as a duplicate-free
list sorted in code-point lexicographic order — the identical list is the
sorted keys with identical verdict and the differences list follows the
same key order — and the summary is independent of the listing order of
the two directories provided no two listed filenames extract to the same
StepKey; with such a collision the summary can depend on listing order
(see the counterexample). -/
theorem C9_sorted_order_and_collision_free_determinism :
    (∀ (bfiles cfiles : List String) (bc cc : String → File),
        ∃ ks : List String, ks.Pairwise strLeP ∧ ks.Nodup ∧
          (∀ k, k ∈ ks ↔ k ∈ matchedKeys bfiles cfiles) ∧
          (compare_screenshots ⟨some bfiles, some cfiles, bc, cc⟩).2.1 =
            ks.filter
              (fun k => (diffEntry k (verdictAt bfiles cfiles bc cc
                k)).isNone) ∧
          (compare_screenshots ⟨some bfiles, some cfiles, bc, cc⟩).2.2 =
            ks.filterMap
              (fun k => diffEntry k (verdictAt bfiles cfiles bc cc k))) ∧
    (∀ (b1 b2 c1 c2 : List String) (bc cc : String → File),
        (∀ x, x ∈ b1 ↔ x ∈ b2) → (∀ x, x ∈ c1 ↔ x ∈ c2) →
        (∀ f g k2, f ∈ b1 → g ∈ b1 → extract_step_info f = some k2 →
          extract_step_info g = some k2 → f = g) →
        (∀ f g k2, f ∈ c1 → g ∈ c1 → extract_step_info f = some k2 →
          extract_step_info g = some k2 → f = g) →
        compare_screenshots ⟨some b1, some c1, bc, cc⟩ =
          compare_screenshots ⟨some b2, some c2, bc, cc⟩) := by
  constructor
  · intro bfiles cfiles bc cc
    by_cases hne : matchedKeys bfiles cfiles = []
    · refine ⟨[], List.Pairwise.nil, List.nodup_nil, ?_, ?_, ?_⟩
      · intro k
        rw [hne]
      · rw [compare_screenshots_no_common hne]
        rfl
      · rw [compare_screenshots_no_common hne]
        rfl
    · refine ⟨sortKeys (matchedKeys bfiles cfiles), sortKeys_sorted _,
        ((sortKeys_perm _).nodup_iff).mpr (commonKeys_nodup _ _),
        fun k => (sortKeys_perm _).mem_iff, ?_, ?_⟩
      · rw [compare_screenshots_run hne]
      · rw [compare_screenshots_run hne]
  · intro b1 b2 c1 c2 bc cc hmb hmc injB injC
    have hmk : ∀ k, k ∈ matchedKeys b1 c1 ↔ k ∈ matchedKeys b2 c2 :=
      commonKeys_mem_congr hmb hmc
    have hv : ∀ k, verdictAt b1 c1 bc cc k = verdictAt b2 c2 bc cc k := by
      intro k
      unfold verdictAt
      rw [keyFile_congr bc hmb injB k, keyFile_congr cc hmc injC k]
    by_cases hne : matchedKeys b1 c1 = []
    · have hne2 : matchedKeys b2 c2 = [] := by
        rw [List.eq_nil_iff_forall_not_mem] at hne ⊢
        intro k hk
        exact hne k ((hmk k).mpr hk)
      rw [compare_screenshots_no_common hne,
        compare_screenshots_no_common hne2]
    · have hne2 : matchedKeys b2 c2 ≠ [] := by
        intro h0
        apply hne
        rw [List.eq_nil_iff_forall_not_mem] at h0 ⊢
        intro k hk
        exact h0 k ((hmk k).mp hk)
      rw [compare_screenshots_run hne, compare_screenshots_run hne2]
      have hsort : sortKeys (matchedKeys b1 c1) =
          sortKeys (matchedKeys b2 c2) :=
        sortKeys_eq_of_same_mem (commonKeys_nodup _ _)
          (commonKeys_nodup _ _) hmk
      have hfun1 : (fun k => diffEntry k (verdictAt b1 c1 bc cc k)) =
          (fun k => diffEntry k (verdictAt b2 c2 bc cc k)) :=
        funext (fun k => by rw [hv k])
      have hfun2 : (fun k => (diffEntry k (verdictAt b1 c1 bc cc
            k)).isNone) =
          (fun k => (diffEntry k (verdictAt b2 c2 bc cc k)).isNone) :=
        funext (fun k => by rw [hv k])
      rw [hsort, hfun1, hfun2]

/-- C9 witness: the sorted-processing part evaluated on the two-snapshot
state, and the collision-free determinism part on a baseline listed in
two different orders. -/
theorem C9_witness :
    (∃ ks : List String, ks.Pairwise strLeP ∧ ks.Nodup ∧
       (∀ k, k ∈ ks ↔ k ∈ matchedKeys ["20240101_120000_01_a.png"]
          ["20240103_120000_01_a.png", "20240103_130000_02_b.png"]) ∧
       (compare_screenshots ⟨some ["20240101_120000_01_a.png"],
          some ["20240103_120000_01_a.png", "20240103_130000_02_b.png"],
          (fun _ => File.img 1 1 [0]), (fun _ => File.img 1 1 [0])⟩).2.1 =
         ks.filter (fun k => (diffEntry k
           (verdictAt ["20240101_120000_01_a.png"]
             ["20240103_120000_01_a.png", "20240103_130000_02_b.png"]
             (fun _ => File.img 1 1 [0]) (fun _ => File.img 1 1 [0])
             k)).isNone) ∧
       (compare_screenshots ⟨some ["20240101_120000_01_a.png"],
          some ["20240103_120000_01_a.png", "20240103_130000_02_b.png"],
          (fun _ => File.img 1 1 [0]), (fun _ => File.img 1 1 [0])⟩).2.2 =
         ks.filterMap (fun k => diffEntry k
           (verdictAt ["20240101_120000_01_a.png"]
             ["20240103_120000_01_a.png", "20240103_130000_02_b.png"]
             (fun _ => File.img 1 1 [0]) (fun _ => File.img 1 1 [0])
             k))) ∧
    compare_screenshots ⟨some ["20240101_100000_01_a.png",
        "20240101_100001_02_b.png"],
      some ["20240102_100000_01_a.png"], (fun _ => File.img 1 1 [0]),
      (fun _ => File.img 1 1 [0])⟩ =
    compare_screenshots ⟨some ["20240101_100001_02_b.png",
        "20240101_100000_01_a.png"],
      some ["20240102_100000_01_a.png"], (fun _ => File.img 1 1 [0]),
      (fun _ => File.img 1 1 [0])⟩ := by
  constructor
  · exact C9_sorted_order_and_collision_free_determinism.1
      ["20240101_120000_01_a.png"]
      ["20240103_120000_01_a.png", "20240103_130000_02_b.png"]
      (fun _ => File.img 1 1 [0]) (fun _ => File.img 1 1 [0])
  · refine C9_sorted_order_and_collision_free_determinism.2
      ["20240101_100000_01_a.png", "20240101_100001_02_b.png"]
      ["20240101_100001_02_b.png", "20240101_100000_01_a.png"]
      ["20240102_100000_01_a.png"] ["20240102_100000_01_a.png"]
      (fun _ => File.img 1 1 [0]) (fun _ => File.img 1 1 [0])
      (fun x => by simp only [List.mem_cons, List.not_mem_nil, or_false]
                   exact or_comm)
      (fun x => Iff.rfl) ?_ ?_
    · intro f g k2 hf hg h1 h2
      simp only [List.mem_cons, List.not_mem_nil, or_false] at hf hg
      have ea : extract_step_info "20240101_100000_01_a.png" =
          some "100000_01_a.png" := by decide
      have eb : extract_step_info "20240101_100001_02_b.png" =
          some "100001_02_b.png" := by decide
      rcases hf with hf | hf <;> rcases hg with hg | hg <;> subst hf <;>
        subst hg
      · rfl
      · rw [ea] at h1
        rw [eb] at h2
        injection h1 with h1
        injection h2 with h2
        subst h1
        exact absurd h2 (by decide)
      · rw [eb] at h1
        rw [ea] at h2
        injection h1 with h1
        injection h2 with h2
        subst h1
        exact absurd h2 (by decide)
      · rfl
    · intro f g k2 hf hg h1 h2
      simp only [List.mem_cons, List.not_mem_nil, or_false] at hf hg
      subst hf
      subst hg
      rfl
